import Mathlib

/-!
Verification of the space-shooter signaling layer.

This file embeds the room-management and signaling code of the repository
(server-side `RoomManager` in `room.ts` / `SignalingServer` in
`server/src/signaling.ts`, client-side `SignalingClient` in
`frontend/src/networking/signaling.ts`, and the peer-session logic in
`webrtc.ts`) as executable Lean definitions, and proves or refutes the
specified properties about them.

JavaScript `Map`s are modelled as association lists preserving insertion
order, with `set` replacing an existing key in place and appending fresh
keys, matching the iteration order that `Array.from(map.values())` observes.
-/

namespace SpaceShooter

/-- A player as stored by the server-side `RoomManager` (`room.ts`).
The socket handle is irrelevant to the registry logic and is omitted;
players are identified by `id`. -/
structure Player where
  id : String
  isHost : Bool
deriving DecidableEq

/-- Room status values from `room.ts`:
`'waiting' | 'full' | 'playing' | 'disconnected'`. -/
inductive RoomStatus
  | waiting
  | full
  | playing
  | disconnected
deriving DecidableEq

/-- A room as stored by the `RoomManager` (`room.ts`). `players` models the
`Map<string, Player>` (insertion order, keyed by player id). -/
structure Room where
  id : String
  code : String
  players : List Player
  status : RoomStatus
  createdAt : Nat
deriving DecidableEq

/-- `Map.set` on the players map: replace in place if the key exists,
otherwise append. -/
def playersSet (ps : List Player) (p : Player) : List Player :=
  if ps.any (fun q => q.id == p.id) then
    ps.map (fun q => if q.id == p.id then p else q)
  else
    ps ++ [p]

/-- `Map.delete` on the players map. -/
def playersDelete (ps : List Player) (pid : String) : List Player :=
  ps.filter (fun q => q.id != pid)

/-- The `RoomManager` state: `rooms : Map<string, Room>` keyed by room id and
`playerRooms : Map<string, string>` mapping player id to room id. -/
structure RoomManagerState where
  rooms : List Room
  playerRooms : List (String × String)
deriving DecidableEq

/-- `Map.set` on the rooms map (keyed by `Room.id`). -/
def roomsSet (rs : List Room) (r : Room) : List Room :=
  if rs.any (fun q => q.id == r.id) then
    rs.map (fun q => if q.id == r.id then r else q)
  else
    rs ++ [r]

/-- `Map.delete` on the rooms map. -/
def roomsDelete (rs : List Room) (roomId : String) : List Room :=
  rs.filter (fun r => r.id != roomId)

/-- `Map.set` on the player-to-room map. -/
def prSet (m : List (String × String)) (k v : String) : List (String × String) :=
  if m.any (fun e => e.1 == k) then
    m.map (fun e => if e.1 == k then (k, v) else e)
  else
    m ++ [(k, v)]

/-- `Map.get` on the player-to-room map. -/
def prGet (m : List (String × String)) (k : String) : Option String :=
  (m.find? (fun e => e.1 == k)).map (fun e => e.2)

/-- `Map.delete` on the player-to-room map. -/
def prDelete (m : List (String × String)) (k : String) : List (String × String) :=
  m.filter (fun e => e.1 != k)

/-- The empty registry. -/
def initialRegistry : RoomManagerState := ⟨[], []⟩

/-- `RoomManager.createRoom` (`room.ts`). The fresh uuid, the generated
room code and `Date.now()` are inputs of the model (they come from the
uuid library, `Math.random` and the clock). The created room starts with
no players and status `waiting`. -/
def createRoom (st : RoomManagerState) (roomId code : String) (now : Nat) :
    RoomManagerState × Room :=
  let room : Room := ⟨roomId, code, [], RoomStatus.waiting, now⟩
  ({ st with rooms := roomsSet st.rooms room }, room)

/-- `RoomManager.getRoomByCode`: first room (in insertion order) whose code
matches, mirroring `Array.from(this.rooms.values()).find(...)`. -/
def getRoomByCode (st : RoomManagerState) (code : String) : Option Room :=
  st.rooms.find? (fun r => r.code == code)

/-- `RoomManager.getRoom`: lookup by room id (`this.rooms.get(roomId)`). -/
def getRoom (st : RoomManagerState) (roomId : String) : Option Room :=
  st.rooms.find? (fun r => r.id == roomId)

/-- `RoomManager.addPlayerToRoom` (`room.ts`): fails if the room is unknown
or already has two players; otherwise adds the player, records the
player-to-room mapping, and flips status to `full` when the room reaches
two players. -/
def addPlayerToRoom (st : RoomManagerState) (roomId : String) (p : Player) :
    RoomManagerState × Bool :=
  match getRoom st roomId with
  | none => (st, false)
  | some room =>
    if 2 ≤ room.players.length then
      (st, false)
    else
      let room1 : Room := { room with players := playersSet room.players p }
      let room2 : Room :=
        if room1.players.length = 2 then { room1 with status := RoomStatus.full } else room1
      ({ rooms := roomsSet st.rooms room2,
         playerRooms := prSet st.playerRooms p.id roomId }, true)

/-- `RoomManager.removePlayer` (`room.ts`): removes the player from its
room; deletes the room when it becomes empty (returning `none`), otherwise
resets status to `waiting` and returns the surviving room. Returns `none`
without touching the rooms map when the player is in no room. -/
def removePlayer (st : RoomManagerState) (playerId : String) :
    RoomManagerState × Option Room :=
  match prGet st.playerRooms playerId with
  | none => (st, none)
  | some roomId =>
    match getRoom st roomId with
    | none => ({ st with playerRooms := prDelete st.playerRooms playerId }, none)
    | some room =>
      let room1 : Room := { room with players := playersDelete room.players playerId }
      let st1 : RoomManagerState :=
        { rooms := roomsSet st.rooms room1,
          playerRooms := prDelete st.playerRooms playerId }
      if room1.players.length = 0 then
        ({ st1 with rooms := roomsDelete st1.rooms roomId }, none)
      else
        let room2 : Room := { room1 with status := RoomStatus.waiting }
        ({ st1 with rooms := roomsSet st1.rooms room2 }, some room2)

/-- Replies the signaling server sends to clients (`server/src/signaling.ts`). -/
inductive ServerReply
  | connectionEstablished (playerId : String)
  | roomCreated (roomId roomCode : String)
  | roomJoined (roomId roomCode : String)
  | playerJoined (playerId : String)
  | playerDisconnected (playerId : String)
  | errorReply (msg : String)
deriving DecidableEq

/-- Whether a reply is an `error` message. -/
def ServerReply.isError : ServerReply → Bool
  | ServerReply.errorReply _ => true
  | _ => false

/-- `SignalingServer.handleCreateRoom`: creates a room and adds the
requester to it as host (`isHost: true`), then replies `room-created`. -/
def handleCreateRoom (st : RoomManagerState) (playerId roomId code : String) (now : Nat) :
    RoomManagerState × ServerReply :=
  let res := createRoom st roomId code now
  let res2 := addPlayerToRoom res.1 res.2.id ⟨playerId, true⟩
  (res2.1, ServerReply.roomCreated res.2.id res.2.code)

/-- `SignalingServer.handleJoinRoom`: looks the room up by code; replies an
error if the code is unknown or the room status is `full`; otherwise adds
the requester as non-host (`isHost: false`), replies an error if that
fails, and on success replies `room-joined` and notifies the room's host
(the occupant with `isHost`) with `player-joined`. The third component is
the optional notification `(hostId, reply)` sent to the host. -/
def handleJoinRoom (st : RoomManagerState) (playerId roomCode : String) :
    RoomManagerState × ServerReply × Option (String × ServerReply) :=
  match getRoomByCode st roomCode with
  | none =>
    (st, ServerReply.errorReply ("Room with code " ++ roomCode ++ " not found"), none)
  | some room =>
    if room.status = RoomStatus.full then
      (st, ServerReply.errorReply ("Room " ++ roomCode ++ " is full"), none)
    else
      let res := addPlayerToRoom st room.id ⟨playerId, false⟩
      if res.2 = false then
        (res.1, ServerReply.errorReply ("Failed to join room " ++ roomCode), none)
      else
        let hostNotify : Option (String × ServerReply) :=
          match getRoom res.1 room.id with
          | some room1 =>
            (room1.players.find? (fun p => p.isHost)).map
              (fun h => (h.id, ServerReply.playerJoined playerId))
          | none => none
        (res.1, ServerReply.roomJoined room.id room.code, hostNotify)

/-- The registry-mutating requests the relay processes: `create-room`,
`join-room`, and a socket close (which removes the player). -/
inductive ServerOp
  | createRoomOp (playerId roomId code : String) (now : Nat)
  | joinRoomOp (playerId roomCode : String)
  | disconnectOp (playerId : String)
deriving DecidableEq

/-- One step of the relay's dispatch, projected to the registry state. -/
def serverStep (st : RoomManagerState) : ServerOp → RoomManagerState
  | ServerOp.createRoomOp pid rid code now => (handleCreateRoom st pid rid code now).1
  | ServerOp.joinRoomOp pid code => (handleJoinRoom st pid code).1
  | ServerOp.disconnectOp pid => (removePlayer st pid).1

/-- The registry state after a sequence of requests, from the empty registry. -/
def runServer (ops : List ServerOp) : RoomManagerState :=
  ops.foldl serverStep initialRegistry

/-- Number of occupants of a room flagged as host. -/
def hostCount (r : Room) : Nat := (r.players.filter (fun p => p.isHost)).length

/-- Registry invariant: every room has at most two players and at most one
host, and room ids are pairwise distinct. -/
def RegistryInv (st : RoomManagerState) : Prop :=
  (∀ r ∈ st.rooms, r.players.length ≤ 2) ∧
  (st.rooms.map Room.id).Nodup ∧
  (∀ r ∈ st.rooms, hostCount r ≤ 1)

theorem mem_roomsSet {rs : List Room} {r r' : Room} (h : r' ∈ roomsSet rs r) :
    r' ∈ rs ∨ r' = r := by
  unfold roomsSet at h
  split at h
  · rcases List.mem_map.mp h with ⟨q, hq, hq'⟩
    by_cases hid : (q.id == r.id) = true
    · rw [if_pos hid] at hq'
      exact Or.inr hq'.symm
    · rw [if_neg hid] at hq'
      exact Or.inl (hq' ▸ hq)
  · rcases List.mem_append.mp h with h1 | h1
    · exact Or.inl h1
    · exact Or.inr (List.mem_singleton.mp h1)

theorem mem_roomsDelete {rs : List Room} {roomId : String} {r' : Room}
    (h : r' ∈ roomsDelete rs roomId) : r' ∈ rs :=
  List.mem_of_mem_filter h

theorem nodup_roomsSet {rs : List Room} {r : Room}
    (h : (rs.map Room.id).Nodup) : ((roomsSet rs r).map Room.id).Nodup := by
  unfold roomsSet
  split
  next hmem =>
    have hids : (rs.map (fun q => if q.id == r.id then r else q)).map Room.id
        = rs.map Room.id := by
      rw [List.map_map]
      apply List.map_congr_left
      intro q _
      by_cases hid : (q.id == r.id) = true
      · simp only [Function.comp_apply, if_pos hid]
        exact (beq_iff_eq.mp hid).symm
      · simp only [Function.comp_apply, if_neg hid]
    rw [hids]
    exact h
  next hmem =>
    rw [List.map_append]
    refine List.Nodup.append h (List.nodup_singleton _) ?_
    intro x hx hx'
    rcases List.mem_map.mp hx with ⟨q, hq, rfl⟩
    have : q.id = r.id := by
      simpa using hx'
    rw [List.any_eq_true] at hmem
    exact hmem ⟨q, hq, beq_iff_eq.mpr this⟩

theorem nodup_roomsDelete {rs : List Room} {roomId : String}
    (h : (rs.map Room.id).Nodup) : ((roomsDelete rs roomId).map Room.id).Nodup :=
  h.sublist ((List.filter_sublist rs).map Room.id)

/-- After `Map.set`, looking the key up yields the stored room. -/
theorem find?_roomsSet_self (rs : List Room) (r : Room) :
    (roomsSet rs r).find? (fun q => q.id == r.id) = some r := by
  unfold roomsSet
  split
  next hmem =>
    induction rs with
    | nil => simp at hmem
    | cons q rest ih =>
      by_cases hid : (q.id == r.id) = true
      · rw [List.map_cons, if_pos hid]
        simp [List.find?_cons]
      · rw [List.map_cons, if_neg hid]
        have hmem' : rest.any (fun q => q.id == r.id) = true := by
          rcases List.any_eq_true.mp hmem with ⟨x, hx, hx'⟩
          rcases List.mem_cons.mp hx with rfl | hx2
          · exact absurd hx' hid
          · exact List.any_eq_true.mpr ⟨x, hx2, hx'⟩
        have hid' : (q.id == r.id) = false := by simpa using hid
        simp only [List.find?_cons, hid']
        exact ih hmem'
  next hmem =>
    induction rs with
    | nil => simp [List.find?]
    | cons q rest ih =>
      have hq : (q.id == r.id) = false := by
        rw [List.any_eq_true] at hmem
        by_contra hc
        exact hmem ⟨q, List.mem_cons_self q rest, by simpa using hc⟩
      have hmem' : ¬ rest.any (fun q => q.id == r.id) = true := by
        intro hc
        rcases List.any_eq_true.mp hc with ⟨x, hx, hx'⟩
        rw [List.any_eq_true] at hmem
        exact hmem ⟨x, List.mem_cons_of_mem q hx, hx'⟩
      rw [List.cons_append]
      simp only [List.find?_cons, hq]
      exact ih hmem'

/-- With pairwise-distinct room ids, looking a member room up by its id
finds exactly that room. -/
theorem find?_id_of_mem {rs : List Room} {r : Room}
    (hnd : (rs.map Room.id).Nodup) (hr : r ∈ rs) :
    rs.find? (fun q => q.id == r.id) = some r := by
  induction rs with
  | nil => cases hr
  | cons q rest ih =>
    rw [List.map_cons, List.nodup_cons] at hnd
    rcases List.mem_cons.mp hr with rfl | hr'
    · simp [List.find?_cons]
    · have hq : (q.id == r.id) = false := by
        by_contra hc
        have hq' : q.id = r.id := beq_iff_eq.mp (by simpa using hc)
        exact hnd.1 (hq' ▸ List.mem_map_of_mem Room.id hr')
      simp only [List.find?_cons, hq]
      exact ih hnd.2 hr'

theorem playersSet_length_le (ps : List Player) (p : Player) :
    (playersSet ps p).length ≤ ps.length + 1 := by
  unfold playersSet
  split
  · rw [List.length_map]
    omega
  · rw [List.length_append]
    simp

theorem hostCount_playersSet_le {ps : List Player} {p : Player}
    (hp : p.isHost = false) :
    ((playersSet ps p).filter (fun q => q.isHost)).length
      ≤ (ps.filter (fun q => q.isHost)).length := by
  unfold playersSet
  rw [← List.countP_eq_length_filter, ← List.countP_eq_length_filter]
  split
  · rw [List.countP_map]
    apply List.countP_mono_left
    intro q _ hq
    simp only [Function.comp_apply] at hq
    by_cases hid : (q.id == p.id) = true
    · rw [if_pos hid] at hq
      rw [hp] at hq
      cases hq
    · rwa [if_neg hid] at hq
  · rw [List.countP_append]
    simp [List.countP_cons, hp]

theorem playersDelete_length_le (ps : List Player) (pid : String) :
    (playersDelete ps pid).length ≤ ps.length :=
  List.length_filter_le _ _

theorem hostCount_playersDelete_le (ps : List Player) (pid : String) :
    ((playersDelete ps pid).filter (fun q => q.isHost)).length
      ≤ (ps.filter (fun q => q.isHost)).length := by
  unfold playersDelete
  rw [← List.countP_eq_length_filter, ← List.countP_eq_length_filter]
  exact (List.filter_sublist ps).countP_le _

theorem registryInv_addPlayer_nonhost {st : RoomManagerState} {roomId : String}
    {p : Player} (h : RegistryInv st) (hp : p.isHost = false) :
    RegistryInv (addPlayerToRoom st roomId p).1 := by
  obtain ⟨hlen, hnd, hhost⟩ := h
  unfold addPlayerToRoom
  cases hfind : getRoom st roomId with
  | none => exact ⟨hlen, hnd, hhost⟩
  | some room =>
    by_cases hsz : 2 ≤ room.players.length
    · simp only [hfind, if_pos hsz]
      exact ⟨hlen, hnd, hhost⟩
    · have hroom : room ∈ st.rooms := List.mem_of_find?_eq_some hfind
      simp only [hfind, if_neg hsz]
      refine ⟨?_, nodup_roomsSet hnd, ?_⟩
      · intro r' hr'
        rcases mem_roomsSet hr' with h1 | rfl
        · exact hlen r' h1
        · split
          · simp only
            omega
          · have := playersSet_length_le room.players p
            simp only
            omega
      · intro r' hr'
        rcases mem_roomsSet hr' with h1 | rfl
        · exact hhost r' h1
        · have hb := @hostCount_playersSet_le room.players _ hp
          have := hhost room hroom
          unfold hostCount at this ⊢
          split
          · simp only
            omega
          · simp only
            omega

theorem registryInv_handleCreateRoom {st : RoomManagerState}
    {playerId roomId code : String} {now : Nat} (h : RegistryInv st) :
    RegistryInv (handleCreateRoom st playerId roomId code now).1 := by
  obtain ⟨hlen, hnd, hhost⟩ := h
  have hfind : List.find? (fun r => r.id == roomId)
      (roomsSet st.rooms ⟨roomId, code, [], RoomStatus.waiting, now⟩)
      = some ⟨roomId, code, [], RoomStatus.waiting, now⟩ :=
    find?_roomsSet_self st.rooms ⟨roomId, code, [], RoomStatus.waiting, now⟩
  unfold handleCreateRoom createRoom addPlayerToRoom getRoom
  simp only [hfind, List.length_nil, Nat.not_succ_le_zero, if_false]
  refine ⟨?_, nodup_roomsSet (nodup_roomsSet hnd), ?_⟩
  · intro r' hr'
    rcases mem_roomsSet hr' with h1 | rfl
    · rcases mem_roomsSet h1 with h2 | rfl
      · exact hlen r' h2
      · simp [playersSet]
    · simp [playersSet]
  · intro r' hr'
    rcases mem_roomsSet hr' with h1 | rfl
    · rcases mem_roomsSet h1 with h2 | rfl
      · exact hhost r' h2
      · simp [hostCount, playersSet]
    · simp [hostCount, playersSet]

theorem registryInv_removePlayer {st : RoomManagerState} {pid : String}
    (h : RegistryInv st) : RegistryInv (removePlayer st pid).1 := by
  obtain ⟨hlen, hnd, hhost⟩ := h
  unfold removePlayer
  cases hget : prGet st.playerRooms pid with
  | none => exact ⟨hlen, hnd, hhost⟩
  | some roomId =>
    dsimp only
    cases hfind : getRoom st roomId with
    | none => exact ⟨hlen, hnd, hhost⟩
    | some room =>
      have hroom : room ∈ st.rooms := List.mem_of_find?_eq_some hfind
      have hlen1 := playersDelete_length_le room.players pid
      have hlen2 := hlen room hroom
      have hh1 := hostCount_playersDelete_le room.players pid
      have hh2 := hhost room hroom
      unfold hostCount at hh2
      dsimp only
      split
      · refine ⟨?_, nodup_roomsDelete (nodup_roomsSet hnd), ?_⟩
        · intro r' hr'
          rcases mem_roomsSet (mem_roomsDelete hr') with h1 | rfl
          · exact hlen r' h1
          · dsimp only
            omega
        · intro r' hr'
          rcases mem_roomsSet (mem_roomsDelete hr') with h1 | rfl
          · exact hhost r' h1
          · unfold hostCount
            dsimp only
            omega
      · refine ⟨?_, nodup_roomsSet (nodup_roomsSet hnd), ?_⟩
        · intro r' hr'
          rcases mem_roomsSet hr' with h1 | rfl
          · rcases mem_roomsSet h1 with h2 | rfl
            · exact hlen r' h2
            · dsimp only
              omega
          · dsimp only
            omega
        · intro r' hr'
          rcases mem_roomsSet hr' with h1 | rfl
          · rcases mem_roomsSet h1 with h2 | rfl
            · exact hhost r' h2
            · unfold hostCount
              dsimp only
              omega
          · unfold hostCount
            dsimp only
            omega

theorem registryInv_serverStep {st : RoomManagerState} (op : ServerOp)
    (h : RegistryInv st) : RegistryInv (serverStep st op) := by
  cases op with
  | createRoomOp pid rid code now => exact registryInv_handleCreateRoom h
  | joinRoomOp pid code =>
    unfold serverStep handleJoinRoom
    dsimp only
    cases hfind : getRoomByCode st code with
    | none => exact h
    | some room =>
      dsimp only
      split
      · exact h
      · split
        · exact registryInv_addPlayer_nonhost h rfl
        · exact registryInv_addPlayer_nonhost h rfl
  | disconnectOp pid => exact registryInv_removePlayer h

theorem registryInv_initial : RegistryInv initialRegistry := by
  refine ⟨?_, ?_, ?_⟩ <;> simp [initialRegistry]

theorem registryInv_runServer (ops : List ServerOp) : RegistryInv (runServer ops) := by
  unfold runServer
  have : ∀ st, RegistryInv st → RegistryInv (ops.foldl serverStep st) := by
    induction ops with
    | nil => intro st h; exact h
    | cons op rest ih =>
      intro st h
      exact ih _ (registryInv_serverStep op h)
  exact this initialRegistry registryInv_initial

/-- After deleting a room id, looking that id up finds nothing. -/
theorem find?_roomsDelete_self (rs : List Room) (roomId : String) :
    (roomsDelete rs roomId).find? (fun r => r.id == roomId) = none := by
  rw [List.find?_eq_none]
  intro r hr hc
  have := List.of_mem_filter hr
  simp only [bne_iff_ne] at this
  exact this (beq_iff_eq.mp hc)

/-- A successful id lookup returns a room carrying that id. -/
theorem getRoom_id {st : RoomManagerState} {roomId : String} {room : Room}
    (h : getRoom st roomId = some room) : room.id = roomId := by
  unfold getRoom at h
  have := List.find?_some h
  simpa using this

/-- C1: over every sequence of registry requests (in particular every
sequence of create-room and join-room requests) each room holds at most
two players, and a join-room request against a room that already has two
occupants yields an error reply and leaves the registry — hence the
room's membership — unchanged. -/
theorem room_capacity_invariant :
    (∀ ops : List ServerOp, ∀ r ∈ (runServer ops).rooms, r.players.length ≤ 2)
    ∧ (∀ (ops : List ServerOp) (pid code : String) (room : Room),
        getRoomByCode (runServer ops) code = some room →
        2 ≤ room.players.length →
        (handleJoinRoom (runServer ops) pid code).1 = runServer ops
        ∧ ((handleJoinRoom (runServer ops) pid code).2.1).isError = true) := by
  constructor
  · intro ops r hr
    exact (registryInv_runServer ops).1 r hr
  · intro ops pid code room hfind hsz
    obtain ⟨hlen, hnd, hhost⟩ := registryInv_runServer ops
    have hroom : room ∈ (runServer ops).rooms := List.mem_of_find?_eq_some hfind
    have hgetid : getRoom (runServer ops) room.id = some room := find?_id_of_mem hnd hroom
    unfold handleJoinRoom
    simp only [hfind]
    by_cases hst : room.status = RoomStatus.full
    · simp only [if_pos hst]
      exact ⟨by trivial, by trivial⟩
    · simp only [if_neg hst]
      unfold addPlayerToRoom
      simp only [hgetid, if_pos hsz]
      exact ⟨by trivial, by trivial⟩

/-- Witness for C1: in the registry reached by create(X)/join(Y), a third
join against the (now two-occupant) room errors and changes nothing. -/
theorem room_capacity_invariant_witness :
    (handleJoinRoom
        (runServer [ServerOp.createRoomOp "X" "r1" "CODE1" 0,
                    ServerOp.joinRoomOp "Y" "CODE1"]) "Z" "CODE1").1
      = runServer [ServerOp.createRoomOp "X" "r1" "CODE1" 0,
                   ServerOp.joinRoomOp "Y" "CODE1"]
    ∧ ((handleJoinRoom
        (runServer [ServerOp.createRoomOp "X" "r1" "CODE1" 0,
                    ServerOp.joinRoomOp "Y" "CODE1"]) "Z" "CODE1").2.1).isError = true :=
  room_capacity_invariant.2
    [ServerOp.createRoomOp "X" "r1" "CODE1" 0, ServerOp.joinRoomOp "Y" "CODE1"]
    "Z" "CODE1"
    ⟨"r1", "CODE1", [⟨"X", true⟩, ⟨"Y", false⟩], RoomStatus.full, 0⟩
    (by decide) (by decide)

/-- C6 counterexample: the claim that every reachable registry state has
exactly one host per room is false. After create(X), join(Y),
disconnect(X), join(Z) the single room has two players and zero hosts. -/
theorem one_host_invariant_counterexample :
    ((runServer [ServerOp.createRoomOp "X" "r1" "CODE1" 0,
                 ServerOp.joinRoomOp "Y" "CODE1",
                 ServerOp.disconnectOp "X",
                 ServerOp.joinRoomOp "Z" "CODE1"]).rooms.map
        (fun r => (r.players.length, hostCount r))) = [(2, 0)] := by decide

/-- C6 amended: every reachable registry state has AT MOST one host per
room (the room's creator is added with the host flag and joiners are
always non-host), but after the host departs a room can persist with zero
hosts — no occupant is ever promoted. -/
theorem at_most_one_host_invariant :
    ∀ ops : List ServerOp, ∀ r ∈ (runServer ops).rooms, hostCount r ≤ 1 :=
  fun ops => (registryInv_runServer ops).2.2

/-- Witness for the amended C6 invariant at a concrete reachable state. -/
theorem at_most_one_host_invariant_witness :
    hostCount ⟨"r1", "CODE1", [⟨"X", true⟩, ⟨"Y", false⟩], RoomStatus.full, 0⟩ ≤ 1 :=
  at_most_one_host_invariant
    [ServerOp.createRoomOp "X" "r1" "CODE1" 0, ServerOp.joinRoomOp "Y" "CODE1"]
    ⟨"r1", "CODE1", [⟨"X", true⟩, ⟨"Y", false⟩], RoomStatus.full, 0⟩
    (by decide)

/-- C7 counterexample: after removing the last occupant the room is
deleted and lookup by id fails, but lookup by the room's CODE can still
succeed, because codes are not unique: here two rooms share code CODE1
and the lookup returns the surviving one. -/
theorem removePlayer_code_lookup_counterexample :
    (removePlayer (runServer [ServerOp.createRoomOp "X" "r1" "CODE1" 0,
                              ServerOp.createRoomOp "Y" "r2" "CODE1" 0]) "X").2 = none
    ∧ getRoom (removePlayer (runServer [ServerOp.createRoomOp "X" "r1" "CODE1" 0,
                              ServerOp.createRoomOp "Y" "r2" "CODE1" 0]) "X").1 "r1" = none
    ∧ getRoomByCode (removePlayer (runServer [ServerOp.createRoomOp "X" "r1" "CODE1" 0,
                              ServerOp.createRoomOp "Y" "r2" "CODE1" 0]) "X").1 "CODE1"
        = some ⟨"r2", "CODE1", [⟨"Y", true⟩], RoomStatus.waiting, 0⟩ := by decide

/-- C7 amended: `removePlayer` removes the player from its room; when the
room becomes empty it is deleted, so lookup by its id returns none and
lookup by its code returns none PROVIDED no other room carries that code;
when occupants remain the status is reset to waiting and the surviving
room is returned; a player in no room yields none with the registry
unchanged. -/
theorem removePlayer_contract :
    (∀ (st : RoomManagerState) (pid : String),
        prGet st.playerRooms pid = none → removePlayer st pid = (st, none))
    ∧ (∀ (st : RoomManagerState) (pid roomId : String) (room : Room),
        prGet st.playerRooms pid = some roomId →
        getRoom st roomId = some room →
        (playersDelete room.players pid).length = 0 →
        (removePlayer st pid).2 = none
        ∧ getRoom (removePlayer st pid).1 roomId = none
        ∧ (∀ code : String, (∀ r ∈ st.rooms, r.code = code → r.id = roomId) →
            getRoomByCode (removePlayer st pid).1 code = none))
    ∧ (∀ (st : RoomManagerState) (pid roomId : String) (room : Room),
        prGet st.playerRooms pid = some roomId →
        getRoom st roomId = some room →
        (playersDelete room.players pid).length ≠ 0 →
        (removePlayer st pid).2 =
          some { room with players := playersDelete room.players pid,
                           status := RoomStatus.waiting }) := by
  refine ⟨?_, ?_, ?_⟩
  · intro st pid h
    unfold removePlayer
    simp only [h]
  · intro st pid roomId room h1 h2 h3
    have hid : room.id = roomId := getRoom_id h2
    unfold removePlayer
    simp only [h1, h2, h3, if_pos]
    refine ⟨by trivial, ?_, ?_⟩
    · exact find?_roomsDelete_self _ roomId
    · intro code hcode
      unfold getRoomByCode
      rw [List.find?_eq_none]
      intro r' hr' hc
      have hne := List.of_mem_filter hr'
      simp only [bne_iff_ne] at hne
      rcases mem_roomsSet (List.mem_of_mem_filter hr') with hmem | rfl
      · exact hne (hcode r' hmem (beq_iff_eq.mp hc))
      · exact hne hid
  · intro st pid roomId room h1 h2 h3
    unfold removePlayer
    simp only [h1, h2, h3, if_neg, if_false]

/-- Witness for the amended C7 contract, applied at concrete registries. -/
theorem removePlayer_contract_witness :
    removePlayer ⟨[⟨"r1", "CODE1", [⟨"X", true⟩], RoomStatus.waiting, 0⟩], []⟩ "X"
      = (⟨[⟨"r1", "CODE1", [⟨"X", true⟩], RoomStatus.waiting, 0⟩], []⟩, none)
    ∧ (removePlayer ⟨[⟨"r1", "CODE1", [⟨"X", true⟩], RoomStatus.waiting, 0⟩],
          [("X", "r1")]⟩ "X").2 = none
    ∧ (removePlayer ⟨[⟨"r1", "CODE1", [⟨"X", true⟩, ⟨"Y", false⟩], RoomStatus.full, 0⟩],
          [("X", "r1"), ("Y", "r1")]⟩ "Y").2
        = some ⟨"r1", "CODE1", [⟨"X", true⟩], RoomStatus.waiting, 0⟩ :=
  ⟨removePlayer_contract.1 _ "X" (by decide),
   (removePlayer_contract.2.1 _ "X" "r1"
      ⟨"r1", "CODE1", [⟨"X", true⟩], RoomStatus.waiting, 0⟩
      (by decide) (by decide) (by decide)).1,
   removePlayer_contract.2.2 _ "Y" "r1"
      ⟨"r1", "CODE1", [⟨"X", true⟩, ⟨"Y", false⟩], RoomStatus.full, 0⟩
      (by decide) (by decide) (by decide)⟩

/-- C8 counterexample: a departure that leaves exactly one occupant resets
the room status to `waiting`; the `disconnected` status claimed by the
spec is never assigned. -/
theorem status_on_departure_counterexample :
    ((removePlayer (runServer [ServerOp.createRoomOp "X" "r1" "CODE1" 0,
                               ServerOp.joinRoomOp "Y" "CODE1"]) "Y").2.map Room.status)
      = some RoomStatus.waiting
    ∧ RoomStatus.waiting ≠ RoomStatus.disconnected := by decide

/-- C8 amended: the status flips waiting → full when the second player
joins, and a departure leaving exactly one occupant resets it to
`waiting` (not `disconnected`). -/
theorem room_status_transitions :
    (∀ (st : RoomManagerState) (roomId : String) (room : Room) (p : Player),
        getRoom st roomId = some room →
        room.players.length = 1 →
        (∀ q ∈ room.players, q.id ≠ p.id) →
        (addPlayerToRoom st roomId p).2 = true
        ∧ ((getRoom (addPlayerToRoom st roomId p).1 roomId).map Room.status)
            = some RoomStatus.full)
    ∧ (∀ (st : RoomManagerState) (pid roomId : String) (room : Room),
        prGet st.playerRooms pid = some roomId →
        getRoom st roomId = some room →
        (playersDelete room.players pid).length = 1 →
        ((removePlayer st pid).2.map Room.status) = some RoomStatus.waiting) := by
  constructor
  · intro st roomId room p hfind hone hfresh
    have hid : room.id = roomId := getRoom_id hfind
    have hany : room.players.any (fun q => q.id == p.id) = false := by
      rw [List.any_eq_false]
      intro q hq hc
      exact hfresh q hq (beq_iff_eq.mp hc)
    have hset : playersSet room.players p = room.players ++ [p] := by
      unfold playersSet
      rw [hany]
      simp
    have hlen2 : (playersSet room.players p).length = 2 := by
      rw [hset, List.length_append, hone]
      rfl
    unfold addPlayerToRoom
    simp only [hfind, hone, if_neg (by omega : ¬ 2 ≤ 1)]
    constructor
    · simp only [hlen2, if_pos]
    · subst hid
      have hself := find?_roomsSet_self st.rooms
        { room with players := playersSet room.players p, status := RoomStatus.full }
      simp only [hlen2, if_pos]
      unfold getRoom
      simp only [hself]
      rfl
  · intro st pid roomId room h1 h2 h3
    unfold removePlayer
    simp only [h1, h2, h3, if_neg, if_false]
    rfl

/-- Witness for the amended C8 transitions at concrete registries. -/
theorem room_status_transitions_witness :
    ((getRoom (addPlayerToRoom
        ⟨[⟨"r1", "CODE1", [⟨"X", true⟩], RoomStatus.waiting, 0⟩], [("X", "r1")]⟩
        "r1" ⟨"Y", false⟩).1 "r1").map Room.status) = some RoomStatus.full
    ∧ ((removePlayer ⟨[⟨"r1", "CODE1", [⟨"X", true⟩, ⟨"Y", false⟩], RoomStatus.full, 0⟩],
          [("X", "r1"), ("Y", "r1")]⟩ "Y").2.map Room.status)
        = some RoomStatus.waiting :=
  ⟨(room_status_transitions.1 _ "r1"
      ⟨"r1", "CODE1", [⟨"X", true⟩], RoomStatus.waiting, 0⟩ ⟨"Y", false⟩
      (by decide) (by decide) (by decide)).2,
   room_status_transitions.2 _ "Y" "r1"
      ⟨"r1", "CODE1", [⟨"X", true⟩, ⟨"Y", false⟩], RoomStatus.full, 0⟩
      (by decide) (by decide) (by decide)⟩

/-- Base-36 digit character as produced by JS `Number.prototype.toString(36)`
(digits then lowercase letters). -/
def base36Char (d : Nat) : Char :=
  if d < 10 then Char.ofNat (48 + d) else Char.ofNat (87 + d)

/-- The string `x.toString(36)` for `x = Math.random() ∈ [0,1)`, modelled
by the finite list of fractional base-36 digits that JS prints (no
trailing zeros, so the list is empty exactly for x = 0, where JS prints
"0"; e.g. x = 0.5 has digits [18] and prints "0.i"). -/
def randomToString36 (ds : List Nat) : String :=
  if ds.isEmpty then "0" else "0." ++ String.mk (ds.map base36Char)

/-- The room code `Math.random().toString(36).substring(2, 8).toUpperCase()`
computed by `RoomManager.createRoom`, as a function of the base-36
fractional digits of the random draw. -/
def roomCodeOfRandom (ds : List Nat) : String :=
  String.mk ((((randomToString36 ds).toList.drop 2).take 6).map Char.toUpper)

/-- C9: the room code is NOT always 6 characters long, contradicting the
code's own comment ("Generate a 6-character alphanumeric room code"): a
random draw of 0.5 (base-36 digits [18]) yields the 1-character code "I",
and a draw of 0 yields the empty code; only draws whose base-36 expansion
has at least 6 fractional digits give 6 characters. -/
theorem room_code_length_bug :
    roomCodeOfRandom [18] = "I"
    ∧ (roomCodeOfRandom [18]).length = 1
    ∧ roomCodeOfRandom [] = ""
    ∧ (roomCodeOfRandom [10, 11, 12, 13, 14, 15, 16]).length = 6 := by decide

/-- `maxReconnectAttempts` of `SignalingClient` (frontend `signaling.ts`). -/
def maxReconnectAttempts : Nat := 5

/-- Events `attemptReconnect` emits. -/
inductive ReconnectEvent
  | reconnecting (attempt maxAttempts delay : Nat)
  | maxAttemptsReached
deriving DecidableEq

/-- `SignalingClient.attemptReconnect`, as a function of the current
`reconnectAttempts` counter: when the counter has reached
`maxReconnectAttempts` it emits the terminal `max-reconnect-attempts`
event and schedules nothing; otherwise it computes
`delay = 2^reconnectAttempts * 1000`, emits
`reconnecting{attempt = reconnectAttempts+1, maxAttempts, delay}` and
schedules the retry after `delay` (returned as `some delay`). The retry
itself increments the counter before reconnecting. -/
def attemptReconnect (reconnectAttempts : Nat) : List ReconnectEvent × Option Nat :=
  if maxReconnectAttempts ≤ reconnectAttempts then
    ([ReconnectEvent.maxAttemptsReached], none)
  else
    ([ReconnectEvent.reconnecting (reconnectAttempts + 1) maxReconnectAttempts
        (2 ^ reconnectAttempts * 1000)],
     some (2 ^ reconnectAttempts * 1000))

/-- Events emitted across `n` consecutive unexpected closes, starting from
counter `a`: each close invokes `attemptReconnect`; while a retry is
scheduled, the timer increments the counter and the failing retry produces
the next close (the `onclose` handler re-enters `attemptReconnect` because
`playerId` is already set). -/
def failRunAux : Nat → Nat → List ReconnectEvent
  | _, 0 => []
  | a, n + 1 =>
    let res := attemptReconnect a
    res.1 ++ (match res.2 with
      | some _ => failRunAux (a + 1) n
      | none => [])

/-- Events emitted when, after a previously successful connection, every
retry fails, starting from a reset counter. -/
def failRun (n : Nat) : List ReconnectEvent := failRunAux 0 n

/-- C2 is about the peer session; C4 is this: for the k-th automatic
reconnect attempt (k ∈ [1,5]) the backoff delay is 2^(k-1)·1000 ms and a
`reconnecting{attempt = k, maxAttempts = 5}` event is emitted before the
retry is scheduled; across five failed attempts the terminal
`max-reconnect-attempts` event is emitted exactly once, after the fifth,
and no further retry is scheduled. -/
theorem reconnect_backoff_schedule :
    (∀ k : Nat, 1 ≤ k → k ≤ 5 →
        attemptReconnect (k - 1)
          = ([ReconnectEvent.reconnecting k 5 (2 ^ (k - 1) * 1000)],
             some (2 ^ (k - 1) * 1000)))
    ∧ failRun 6 =
        [ReconnectEvent.reconnecting 1 5 1000,
         ReconnectEvent.reconnecting 2 5 2000,
         ReconnectEvent.reconnecting 3 5 4000,
         ReconnectEvent.reconnecting 4 5 8000,
         ReconnectEvent.reconnecting 5 5 16000,
         ReconnectEvent.maxAttemptsReached]
    ∧ (failRun 6).count ReconnectEvent.maxAttemptsReached = 1
    ∧ (attemptReconnect 5).2 = none := by
  refine ⟨?_, by decide, by decide, by decide⟩
  intro k h1 h2
  interval_cases k <;> decide

/-- Witness for C4: the third attempt is announced with delay 4000 ms. -/
theorem reconnect_backoff_schedule_witness :
    attemptReconnect 2 = ([ReconnectEvent.reconnecting 3 5 4000], some 4000) :=
  reconnect_backoff_schedule.1 3 (by decide) (by decide)

/-- How the promise returned by `SignalingClient.connect` can end. -/
inductive ConnectOutcome
  | resolved
  | rejectedTimeout
  | rejectedClosed
deriving DecidableEq

/-- State of one `connect(url)` call: the promise settlement (a JS promise
settles at most once), whether the socket has reported open, whether any
relay message has recorded a `playerId` (that is what `handleMessage`
stores on `connection-established`), and whether the 10-second connection
timer has been cleared. -/
structure ConnectState where
  outcome : Option ConnectOutcome
  socketOpen : Bool
  playerIdSet : Bool
  timerCleared : Bool
deriving DecidableEq

/-- Settle the promise; later settlements are ignored. -/
def settle (st : ConnectState) (o : ConnectOutcome) : ConnectState :=
  if st.outcome.isSome then st else { st with outcome := some o }

/-- Events observable by one `connect(url)` call: the socket `open` event,
receipt of the `connection-established` relay message, an unclean or clean
socket close, and the 10-second connection timer firing. -/
inductive ConnectEvent
  | socketOpened
  | establishedMsg
  | uncleanClose
  | cleanClose
  | timerFired
deriving DecidableEq

/-- The handlers installed by `SignalingClient.connect`: `onopen` clears
the timer and resolves; `onmessage` for `connection-established` stores
the playerId (and does not settle the promise); `onclose` clears the timer
and — only when no playerId was ever recorded and the close was unclean —
rejects; the timer callback rejects with the timeout error when the socket
is not yet open (a cleared timer never fires). -/
def connectStep (st : ConnectState) : ConnectEvent → ConnectState
  | ConnectEvent.socketOpened =>
      settle { st with socketOpen := true, timerCleared := true } ConnectOutcome.resolved
  | ConnectEvent.establishedMsg => { st with playerIdSet := true }
  | ConnectEvent.uncleanClose =>
      let st1 := { st with socketOpen := false, timerCleared := true }
      if st1.playerIdSet then st1 else settle st1 ConnectOutcome.rejectedClosed
  | ConnectEvent.cleanClose => { st with socketOpen := false, timerCleared := true }
  | ConnectEvent.timerFired =>
      if st.timerCleared then st
      else if st.socketOpen then st
      else settle st ConnectOutcome.rejectedTimeout

/-- State at the start of a `connect(url)` call. -/
def connectInit : ConnectState := ⟨none, false, false, false⟩

/-- The connect promise's state after a sequence of events. -/
def connectRun (evs : List ConnectEvent) : ConnectState :=
  evs.foldl connectStep connectInit

theorem connectStep_outcome_mono {st : ConnectState} {o : ConnectOutcome}
    (e : ConnectEvent) (h : st.outcome = some o) :
    (connectStep st e).outcome = some o := by
  cases e <;> unfold connectStep settle <;> split_ifs <;> simp_all <;> split_ifs <;> simp_all

theorem connectFold_outcome_mono {st : ConnectState} {o : ConnectOutcome}
    (evs : List ConnectEvent) (h : st.outcome = some o) :
    (evs.foldl connectStep st).outcome = some o := by
  induction evs generalizing st with
  | nil => exact h
  | cons e rest ih => exact ih (connectStep_outcome_mono e h)

/-- C5 counterexample: the promise resolves on the socket `open` event, so
it can be (and always is) resolved without any `connection-established`
message ever being received — refuting "resolves only once a
connection-established message has been received". -/
theorem connect_resolves_without_established :
    (connectRun [ConnectEvent.socketOpened]).outcome = some ConnectOutcome.resolved
    ∧ ConnectEvent.establishedMsg ∉ [ConnectEvent.socketOpened] := by decide

/-- C5 amended: `connect(url)` resolves as soon as the underlying socket
reports open — before any `connection-established` message is processed;
it rejects with the timeout error when the 10-second timer fires while
the socket is not yet open, and rejects when the connection closes
uncleanly before any relay message has recorded a playerId. -/
theorem connect_promise_semantics :
    (∀ evs : List ConnectEvent,
        (connectRun (ConnectEvent.socketOpened :: evs)).outcome
          = some ConnectOutcome.resolved)
    ∧ (∀ evs : List ConnectEvent,
        (connectRun (ConnectEvent.timerFired :: evs)).outcome
          = some ConnectOutcome.rejectedTimeout)
    ∧ (∀ evs : List ConnectEvent,
        (connectRun (ConnectEvent.uncleanClose :: evs)).outcome
          = some ConnectOutcome.rejectedClosed) := by
  refine ⟨?_, ?_, ?_⟩ <;>
    intro evs <;>
    · unfold connectRun
      rw [List.foldl_cons]
      exact connectFold_outcome_mono evs (by decide)

/-- The five message types the client handles both in a dedicated branch
and through the generic per-type dispatch. -/
def specialEmitTypes : List String :=
  ["room-created", "room-joined", "player-joined", "player-disconnected", "error"]

/-- The sequence of event names `SignalingClient.handleMessage` emits for
an inbound message of type `t`: one dedicated branch per known type
(`connection-established` emits under the distinct name `connected`),
followed by the unconditional generic `emit(message.type, message)`. -/
def handleMessageEmits (t : String) : List String :=
  (if t = "connection-established" then ["connected"] else [])
  ++ (if t = "room-created" then ["room-created"] else [])
  ++ (if t = "room-joined" then ["room-joined"] else [])
  ++ (if t = "player-joined" then ["player-joined"] else [])
  ++ (if t = "player-disconnected" then ["player-disconnected"] else [])
  ++ (if t = "error" then ["error"] else [])
  ++ [t]

/-- C10: a callback registered with `on(t, cb)` runs once per occurrence
of `t` in `handleMessageEmits` of the inbound type; for the five
specially-handled types it runs twice per matching message (dedicated
branch plus generic dispatch), and exactly once for every other type
(including `connection-established`, whose dedicated branch emits the
different name `connected`). -/
theorem duplicate_dispatch_count :
    ∀ t : String,
      (t ∈ specialEmitTypes → (handleMessageEmits t).count t = 2)
      ∧ (t ∉ specialEmitTypes → (handleMessageEmits t).count t = 1) := by
  intro t
  constructor
  · intro h
    simp only [specialEmitTypes, List.mem_cons, List.not_mem_nil, or_false] at h
    rcases h with rfl | rfl | rfl | rfl | rfl <;> decide
  · intro h
    simp only [specialEmitTypes, List.mem_cons, List.not_mem_nil, or_false,
      not_or] at h
    obtain ⟨h1, h2, h3, h4, h5⟩ := h
    by_cases hc : t = "connection-established"
    · subst hc
      decide
    · unfold handleMessageEmits
      rw [if_neg hc, if_neg h1, if_neg h2, if_neg h3, if_neg h4, if_neg h5]
      simp [List.count_cons]

/-- Witness for C10 at a special and a non-special type. -/
theorem duplicate_dispatch_count_witness :
    (handleMessageEmits "room-created").count "room-created" = 2
    ∧ (handleMessageEmits "offer").count "offer" = 1 :=
  ⟨(duplicate_dispatch_count "room-created").1 (by decide),
   (duplicate_dispatch_count "offer").2 (by decide)⟩

/-- The heartbeat send interval of `WebRTCConnection.startHeartbeat`
(2000 ms). -/
def heartbeatIntervalMs : Nat := 2000

/-- The ack-staleness threshold checked on each heartbeat tick (10000 ms). -/
def heartbeatTimeoutMs : Nat := 10000

/-- The mutable fields of `WebRTCConnection` (`webrtc.ts`) that drive the
heartbeat/restart logic: the message `sequence` counter, the timestamp of
the last received heartbeat-ack, the connection/channel flags, whether the
heartbeat interval is armed, the session role (`isHost` — Offerer when
true), and the signaling-level `reconnecting` flag. -/
structure RTCState where
  sequence : Nat
  lastHeartbeatAck : Nat
  isConnected : Bool
  channelOpen : Bool
  heartbeatActive : Bool
  isHost : Bool
  reconnecting : Bool
deriving DecidableEq

/-- Externally visible actions of the peer session. -/
inductive RTCAction
  | sendHeartbeat (seq now : Nat)
  | sendHeartbeatAck (seq now : Nat)
  | notifyDisconnected
  | newPeerConnection
  | sendOfferAction
deriving DecidableEq

/-- The guard of `WebRTCConnection.sendMessage`: a message goes out only
when the session is connected and the data channel is open. -/
def canSend (st : RTCState) : Bool := st.isConnected && st.channelOpen

/-- `WebRTCConnection.closePeerConnection`: stops the heartbeat, closes
the data channel and marks the session disconnected. -/
def closePeerConnection (st : RTCState) : RTCState :=
  { st with heartbeatActive := false, channelOpen := false, isConnected := false }

/-- `WebRTCConnection.restartConnection`: only when `isHost` (the Offerer)
does it create a replacement peer connection (`createPeerConnection`
begins by fully closing the previous one) and send a new offer; on the
Answerer it does nothing at all. -/
def restartConnection (st : RTCState) : RTCState × List RTCAction :=
  if st.isHost then
    (closePeerConnection st, [RTCAction.newPeerConnection, RTCAction.sendOfferAction])
  else
    (st, [])

/-- State after `handleDisconnection`'s unconditional prefix: the session
is marked disconnected, the heartbeat stopped, and one sequence number is
consumed by the synthetic GAME_STATE notification to listeners. -/
def disconnectedState (st : RTCState) : RTCState :=
  { st with isConnected := false, heartbeatActive := false,
            sequence := st.sequence + 1 }

/-- `WebRTCConnection.handleDisconnection`: marks the session
disconnected, stops the heartbeat, notifies listeners, and — unless a
signaling-level reconnect is in progress — calls `restartConnection`. -/
def handleDisconnection (st : RTCState) : RTCState × List RTCAction :=
  if st.reconnecting then
    (disconnectedState st, [RTCAction.notifyDisconnected])
  else
    ((restartConnection (disconnectedState st)).1,
     RTCAction.notifyDisconnected :: (restartConnection (disconnectedState st)).2)

/-- One firing of the `startHeartbeat` interval callback at time `now`: a
cleared interval never runs; otherwise a heartbeat carrying the current
sequence number is sent (when `sendMessage`'s guard allows; the
`sequence++` argument evaluation increments the counter regardless), and
then, when more than 10000 ms have passed since the last recorded
heartbeat-ack, `handleDisconnection` runs. -/
def heartbeatTick (st : RTCState) (now : Nat) : RTCState × List RTCAction :=
  if st.heartbeatActive = false then
    (st, [])
  else if heartbeatTimeoutMs < now - st.lastHeartbeatAck then
    ((handleDisconnection { st with sequence := st.sequence + 1 }).1,
     (if canSend st then [RTCAction.sendHeartbeat st.sequence now] else [])
       ++ (handleDisconnection { st with sequence := st.sequence + 1 }).2)
  else
    ({ st with sequence := st.sequence + 1 },
     if canSend st then [RTCAction.sendHeartbeat st.sequence now] else [])

/-- The data-channel `onmessage` handler receiving a HEARTBEAT at time
`now`: it replies with a HEARTBEAT_ACK carrying the current sequence
number (the `sequence++` evaluation increments the counter; the send is
gated by `sendMessage`'s guard) and surfaces nothing to listeners. -/
def receiveHeartbeat (st : RTCState) (now : Nat) : RTCState × List RTCAction :=
  ({ st with sequence := st.sequence + 1 },
   if canSend st then [RTCAction.sendHeartbeatAck st.sequence now] else [])

/-- The data-channel `onmessage` handler receiving a HEARTBEAT_ACK at time
`now`: records the ack time and surfaces nothing to listeners. -/
def receiveHeartbeatAck (st : RTCState) (now : Nat) : RTCState × List RTCAction :=
  ({ st with lastHeartbeatAck := now }, [])

/-- Events driving the heartbeat machinery. -/
inductive RTCEvent
  | tick (now : Nat)
  | recvHeartbeat (now : Nat)
  | recvHeartbeatAck (now : Nat)
deriving DecidableEq

/-- Dispatch of one heartbeat-related event. -/
def rtcStep (st : RTCState) : RTCEvent → RTCState × List RTCAction
  | RTCEvent.tick now => heartbeatTick st now
  | RTCEvent.recvHeartbeat now => receiveHeartbeat st now
  | RTCEvent.recvHeartbeatAck now => receiveHeartbeatAck st now

/-- `n` interval firings, 2000 ms apart, starting at time `t0`, with no
intervening acks (the silent-peer scenario). -/
def runTicks (st : RTCState) (t0 : Nat) : Nat → RTCState
  | 0 => st
  | n + 1 => runTicks (heartbeatTick st t0).1 (t0 + heartbeatIntervalMs) n

theorem handleDisconnection_disconnects (st : RTCState) :
    (handleDisconnection st).1.isConnected = false
    ∧ (handleDisconnection st).1.heartbeatActive = false := by
  unfold handleDisconnection restartConnection closePeerConnection disconnectedState
  split_ifs <;> simp

theorem handleDisconnection_seq (st : RTCState) :
    st.sequence + 1 ≤ (handleDisconnection st).1.sequence := by
  unfold handleDisconnection restartConnection closePeerConnection disconnectedState
  split_ifs <;> simp

theorem heartbeatTick_inactive {st : RTCState} (now : Nat)
    (h : st.heartbeatActive = false) : heartbeatTick st now = (st, []) := by
  unfold heartbeatTick
  rw [if_pos h]

theorem runTicks_inactive {st : RTCState} (t0 n : Nat)
    (h : st.heartbeatActive = false) : runTicks st t0 n = st := by
  induction n generalizing st t0 with
  | zero => rfl
  | succ m ih =>
    unfold runTicks
    rw [heartbeatTick_inactive _ h]
    exact ih _ h

theorem heartbeatTick_quiet {st : RTCState} {now : Nat}
    (hact : st.heartbeatActive = true)
    (hq : ¬ heartbeatTimeoutMs < now - st.lastHeartbeatAck) :
    (heartbeatTick st now).1 = { st with sequence := st.sequence + 1 } := by
  unfold heartbeatTick
  rw [if_neg (by simp [hact]), if_neg hq]

theorem heartbeatTick_stale {st : RTCState} {now : Nat}
    (hact : st.heartbeatActive = true)
    (hs : heartbeatTimeoutMs < now - st.lastHeartbeatAck) :
    (heartbeatTick st now).1.isConnected = false
    ∧ (heartbeatTick st now).1.heartbeatActive = false := by
  unfold heartbeatTick
  rw [if_neg (by simp [hact]), if_pos hs]
  exact handleDisconnection_disconnects _

/-- With the heartbeat armed and no acks arriving, the session is
disconnected by the first tick falling after `lastHeartbeatAck + 10000`. -/
theorem runTicks_disconnects {st : RTCState} {t0 n : Nat}
    (hact : st.heartbeatActive = true)
    (hdl : st.lastHeartbeatAck + heartbeatTimeoutMs < t0 + heartbeatIntervalMs * n) :
    (runTicks st t0 (n + 1)).isConnected = false := by
  induction n generalizing st t0 with
  | zero =>
    have hs : heartbeatTimeoutMs < t0 - st.lastHeartbeatAck := by
      unfold heartbeatIntervalMs at hdl
      unfold heartbeatTimeoutMs at hdl ⊢
      omega
    show (runTicks (heartbeatTick st t0).1 (t0 + heartbeatIntervalMs) 0).isConnected = false
    exact (heartbeatTick_stale hact hs).1
  | succ m ih =>
    by_cases hs : heartbeatTimeoutMs < t0 - st.lastHeartbeatAck
    · have h1 := heartbeatTick_stale hact hs
      show (runTicks (heartbeatTick st t0).1 (t0 + heartbeatIntervalMs) (m + 1)).isConnected
          = false
      rw [runTicks_inactive _ _ h1.2]
      exact h1.1
    · have h1 := heartbeatTick_quiet hact hs
      show (runTicks (heartbeatTick st t0).1 (t0 + heartbeatIntervalMs) (m + 1)).isConnected
          = false
      rw [h1]
      exact ih hact (by dsimp only; simp only [heartbeatIntervalMs] at hdl ⊢; omega)

/-- C2: with the heartbeat running over an open data channel, every
2000 ms interval firing sends a heartbeat carrying the current sequence
counter and strictly increases it — and no event ever decreases it, so
successive heartbeats carry strictly increasing sequence numbers; every
received heartbeat is auto-answered with a heartbeat-ack; and when acks
stop, the session is disconnected by the first tick past
`lastHeartbeatAck + 10000 ms`, a point within one 2000 ms tick of that
deadline. -/
theorem heartbeat_liveness :
    (∀ (st : RTCState) (now : Nat),
        st.heartbeatActive = true → st.isConnected = true → st.channelOpen = true →
        RTCAction.sendHeartbeat st.sequence now ∈ (heartbeatTick st now).2
        ∧ st.sequence < (heartbeatTick st now).1.sequence)
    ∧ (∀ (st : RTCState) (e : RTCEvent), st.sequence ≤ (rtcStep st e).1.sequence)
    ∧ (∀ (st : RTCState) (now : Nat),
        st.isConnected = true → st.channelOpen = true →
        RTCAction.sendHeartbeatAck st.sequence now ∈ (receiveHeartbeat st now).2)
    ∧ (∀ (st : RTCState) (t0 : Nat),
        st.heartbeatActive = true →
        t0 ≤ st.lastHeartbeatAck + heartbeatTimeoutMs + heartbeatIntervalMs →
        ∃ k : Nat,
          t0 + heartbeatIntervalMs * k
            ≤ st.lastHeartbeatAck + heartbeatTimeoutMs + heartbeatIntervalMs
          ∧ (runTicks st t0 (k + 1)).isConnected = false) := by
  refine ⟨?_, ?_, ?_, ?_⟩
  · intro st now hact hconn hchan
    have hsend : canSend st = true := by simp [canSend, hconn, hchan]
    constructor
    · unfold heartbeatTick
      rw [if_neg (by simp [hact]), hsend]
      split <;> simp
    · unfold heartbeatTick
      rw [if_neg (by simp [hact])]
      split
      · have := handleDisconnection_seq { st with sequence := st.sequence + 1 }
        simp only at this ⊢
        omega
      · simp
  · intro st e
    cases e with
    | tick now =>
      show st.sequence ≤ (heartbeatTick st now).1.sequence
      unfold heartbeatTick
      split
      · simp
      · split
        · have := handleDisconnection_seq { st with sequence := st.sequence + 1 }
          simp only at this ⊢
          omega
        · simp
    | recvHeartbeat now => simp [rtcStep, receiveHeartbeat]
    | recvHeartbeatAck now => simp [rtcStep, receiveHeartbeatAck]
  · intro st now hconn hchan
    have hsend : canSend st = true := by simp [canSend, hconn, hchan]
    unfold receiveHeartbeat
    rw [hsend]
    simp
  · intro st t0 hact hstart
    simp only [heartbeatIntervalMs, heartbeatTimeoutMs] at hstart ⊢
    by_cases hfirst : st.lastHeartbeatAck + 10000 < t0
    · refine ⟨0, by omega, ?_⟩
      apply runTicks_disconnects hact
      simp only [heartbeatIntervalMs, heartbeatTimeoutMs]
      omega
    · refine ⟨(st.lastHeartbeatAck + 10000 - t0) / 2000 + 1, by omega, ?_⟩
      apply runTicks_disconnects hact
      simp only [heartbeatIntervalMs, heartbeatTimeoutMs]
      omega

/-- Witness for C2 at a concrete session state: a tick at t = 5 sends the
heartbeat and bumps the counter; a heartbeat received at t = 5 is acked;
with the last ack at t = 0 and ticks from t = 1000, the session is
disconnected by a tick no later than t = 12000. -/
theorem heartbeat_liveness_witness :
    (RTCAction.sendHeartbeat 7 5 ∈ (heartbeatTick ⟨7, 0, true, true, true, true, false⟩ 5).2
      ∧ 7 < (heartbeatTick ⟨7, 0, true, true, true, true, false⟩ 5).1.sequence)
    ∧ RTCAction.sendHeartbeatAck 7 5
        ∈ (receiveHeartbeat ⟨7, 0, true, true, true, true, false⟩ 5).2
    ∧ ∃ k : Nat,
        1000 + heartbeatIntervalMs * k ≤ 12000
        ∧ (runTicks ⟨7, 0, true, true, true, true, false⟩ 1000 (k + 1)).isConnected = false :=
  ⟨heartbeat_liveness.1 ⟨7, 0, true, true, true, true, false⟩ 5 rfl rfl rfl,
   heartbeat_liveness.2.2.1 ⟨7, 0, true, true, true, true, false⟩ 5 rfl rfl,
   heartbeat_liveness.2.2.2 ⟨7, 0, true, true, true, true, false⟩ 1000 rfl (by decide)⟩

/-- C3: after any disconnection only the Offerer creates a replacement
peer connection and sends a new offer: on an Answerer (`isHost = false`)
`restartConnection` is a no-op (state unchanged, no actions), and
`handleDisconnection` never emits a peer-connection restart or an offer
in any state; on the Offerer with no signaling reconnect in progress,
`handleDisconnection` does emit both. -/
theorem answerer_never_restarts :
    (∀ st : RTCState, st.isHost = false → restartConnection st = (st, []))
    ∧ (∀ st : RTCState, st.isHost = false →
        ∀ a ∈ (handleDisconnection st).2,
          a ≠ RTCAction.newPeerConnection ∧ a ≠ RTCAction.sendOfferAction)
    ∧ (∀ st : RTCState, st.isHost = true → st.reconnecting = false →
        RTCAction.newPeerConnection ∈ (handleDisconnection st).2
        ∧ RTCAction.sendOfferAction ∈ (handleDisconnection st).2) := by
  refine ⟨?_, ?_, ?_⟩
  · intro st h
    unfold restartConnection
    rw [if_neg (by simp [h])]
  · intro st h a ha
    unfold handleDisconnection restartConnection disconnectedState at ha
    by_cases hr : st.reconnecting = true
    · rw [if_pos hr] at ha
      simp only [List.mem_singleton] at ha
      subst ha
      exact ⟨by simp, by simp⟩
    · rw [if_neg hr, if_neg (by simp [h])] at ha
      simp only [List.mem_singleton, List.mem_cons, List.not_mem_nil, or_false] at ha
      subst ha
      exact ⟨by simp, by simp⟩
  · intro st hh hr
    unfold handleDisconnection restartConnection disconnectedState
    rw [if_neg (by simp [hr]), if_pos (by simp [hh])]
    exact ⟨by simp, by simp⟩

/-- Witness for C3: on a concrete Answerer state a disconnection emits
only the listener notification, and `restartConnection` is a no-op; on
the matching Offerer state it emits the restart and the new offer. -/
theorem answerer_never_restarts_witness :
    restartConnection ⟨7, 0, false, false, false, false, false⟩
      = (⟨7, 0, false, false, false, false, false⟩, [])
    ∧ (RTCAction.newPeerConnection
          ∈ (handleDisconnection ⟨7, 0, true, true, true, true, false⟩).2
        ∧ RTCAction.sendOfferAction
          ∈ (handleDisconnection ⟨7, 0, true, true, true, true, false⟩).2)
    ∧ (RTCAction.newPeerConnection
        ∉ (handleDisconnection ⟨7, 0, true, true, true, false, false⟩).2) :=
  ⟨answerer_never_restarts.1 ⟨7, 0, false, false, false, false, false⟩ rfl,
   answerer_never_restarts.2.2 ⟨7, 0, true, true, true, true, false⟩ rfl rfl,
   fun hmem =>
     ((answerer_never_restarts.2.1 ⟨7, 0, true, true, true, false, false⟩ rfl
        RTCAction.newPeerConnection hmem).1 rfl)⟩

end SpaceShooter
